import Mathlib

/-!
Shallow embedding of the THEMIS configuration resolution engine from
`src/themis_visual_editor.py`: the document data model, the resolver
(`ConfigResolver._expand_slot` / `resolve_nodes` / `resolve`), the edit-back
writer (`ConfigResolver.apply_move`), the detach operation
(`ConfigResolver.detach_blueprint_for_node`) and the validator
(`ThemisConfigModel.validate`), together with theorems settling the
specification's testable properties.

Python dictionaries with optional keys are modelled as structures with
`Option` fields (key presence = `isSome`); mappings are association lists;
Python `int` is `Int`; code that can raise returns `Option`.
-/

/-- Python `a or b` where `a` is an optional string and `b` a string
fallback: `None` and the empty string are falsy. -/
def pyStrOr (a : Option String) (b : String) : String :=
  match a with
  | some s => if s = "" then b else s
  | none => b

/-- Python `int(v or 1)` applied to a present integer value: `0` is falsy. -/
def pyIntOr1 (v : Int) : Int := if v = 0 then 1 else v

/-- Python list subscript resolution: a non-negative in-range index is used
directly, a negative index wraps from the end, anything else raises
(`none`). -/
def pyIndex (len : Nat) (i : Int) : Option Nat :=
  if 0 ≤ i then (if i < (len : Int) then some i.toNat else none)
  else (let j := (len : Int) + i
        if 0 ≤ j then some j.toNat else none)

/-- Python `range(s, e + 1)` (the loop of the `startRow`/`endRow` branch of
`_expand_slot`) as a list of integers. -/
def intRange (s e : Int) : List Int :=
  (List.range (e + 1 - s).toNat).map (fun (k : Nat) => s + (k : Int))

/-- Python `str.lower()` (character-level model, kernel-computable). -/
def pyLower (s : String) : String := String.mk (s.data.map Char.toLower)

/-- Python `str.strip()` (whitespace trim, character-level model). -/
def pyStrip (s : String) : String :=
  String.mk (((s.data.dropWhile Char.isWhitespace).reverse.dropWhile
    Char.isWhitespace).reverse)

/-- One relative field offset of a layout blueprint: `{row, col}`. -/
structure FieldOffset where
  row : Int := 0
  col : Int := 0
deriving Repr, DecidableEq, Inhabited

/-- One entry of `LAYOUT_BLUEPRINTS`: a dict whose `offsets` key (empty
mapping when absent) maps field keys to relative offsets. -/
structure LayoutDef where
  offsets : List (String × FieldOffset) := []
deriving Repr, DecidableEq, Inhabited

/-- One entry of a slot's `locations` list: a `{row?, col?}` point dict. -/
structure PointLoc where
  row : Option Int := none
  col : Option Int := none
deriving Repr, DecidableEq, Inhabited

/-- A slot's `location` dict: every key optional, presence significant. -/
structure SlotLoc where
  col : Option Int := none
  sheetName : Option String := none
  rows : Option (List Int) := none
  row : Option Int := none
  startRow : Option Int := none
  endRow : Option Int := none
deriving Repr, DecidableEq, Inhabited

/-- One slot definition (an entry of a `SLOT_BLUEPRINTS` collection or of a
node's `slots` list). `rank`, `ranks`, `count` and `title` are carried but
play no role in resolution. -/
structure SlotDef where
  layout : Option String := none
  location : Option SlotLoc := none
  locations : Option (List PointLoc) := none
  rank : Option String := none
  ranks : Option (List String) := none
  count : Option Int := none
  title : Option String := none
deriving Repr, DecidableEq, Inhabited

/-- An organization node's `location` dict (only `startCol` is consulted). -/
structure NodeLoc where
  startCol : Option Int := none
deriving Repr, DecidableEq, Inhabited

/-- One entry of `RANK_HIERARCHY`. -/
structure Rank where
  name : Option String := none
  abbr : Option String := none
deriving Repr, DecidableEq, Inhabited

/-- One node of `ORGANIZATION_HIERARCHY`. `slots` absent is identified with
the empty list (the code reads it as `node.get("slots", []) or []`). -/
inductive OrgNode : Type where
  | mk (name : Option String) (sheetName : Option String)
       (layout : Option String) (location : Option NodeLoc)
       (useSlotsFrom : Option String) (slots : List SlotDef)
       (children : List OrgNode)
deriving Repr, Inhabited

def OrgNode.name : OrgNode → Option String
  | .mk v _ _ _ _ _ _ => v

def OrgNode.sheetName : OrgNode → Option String
  | .mk _ v _ _ _ _ _ => v

def OrgNode.layout : OrgNode → Option String
  | .mk _ _ v _ _ _ _ => v

def OrgNode.location : OrgNode → Option NodeLoc
  | .mk _ _ _ v _ _ _ => v

def OrgNode.useSlotsFrom : OrgNode → Option String
  | .mk _ _ _ _ v _ _ => v

def OrgNode.slots : OrgNode → List SlotDef
  | .mk _ _ _ _ _ v _ => v

def OrgNode.children : OrgNode → List OrgNode
  | .mk _ _ _ _ _ _ v => v

/-- The parts of the `ThemisConfigModel` data dict that the resolver, the
detach operation and the validator consult. -/
structure Document where
  layoutBlueprints : List (String × LayoutDef) := []
  slotBlueprints : List (String × List SlotDef) := []
  organizationHierarchy : List OrgNode := []
  rankHierarchy : List Rank := []
  recruitmentLogSheetName : Option String := none
  eventLogSheetName : Option String := none
  attendanceSheetName : Option String := none
deriving Repr, Inhabited

/-- The `ResolvedInstance` dataclass. `nodeRef`/`slotRef` carry the values
of the owning node and slot (the Python fields alias the live document). -/
structure ResolvedInstance where
  sheet : String
  row : Int
  col : Int
  layout : String
  offsets : List (String × FieldOffset)
  nodePathNames : List String
  nodeRef : OrgNode
  slotRef : SlotDef
  origin : String
  originName : Option String
  slotIndex : Option Int
  coordStrategy : String
  coordIndex : Option Int
  colSource : String
deriving Repr, Inhabited

/-- `ConfigResolver._find_in_path`: walk the node path from the innermost
node outwards and return the stored value at the first node where the key
is present — regardless of the value's truthiness. -/
def findInPath (path : List OrgNode) (f : OrgNode → Option α) : Option α :=
  path.reverse.findSome? f

/-- `ConfigResolver._expand_slot`: expand one slot definition into its
resolved instances, given the ancestor path (innermost node last, the
owning node included), the current sheet, the owning node, the origin tag
and the slot's index within its collection. -/
def expandSlot (doc : Document) (slot : SlotDef) (path : List OrgNode)
    (currentSheet : Option String) (node : OrgNode) (origin : String)
    (originName : Option String) (slotIndex : Nat) : List ResolvedInstance :=
  let layout := pyStrOr slot.layout (pyStrOr (findInPath path OrgNode.layout) "")
  let offsets := ((doc.layoutBlueprints.lookup layout).getD {}).offsets
  let loc := slot.location.getD {}
  let nodeLoc := node.location.getD {}
  let dc : Int × String :=
    match loc.col with
    | some v => (pyIntOr1 v, "slot")
    | none =>
      match nodeLoc.startCol with
      | some v => (pyIntOr1 v, "node")
      | none => (1, "node")
  let defaultCol := dc.1
  let colSource := dc.2
  let sheet := pyStrOr loc.sheetName (pyStrOr currentSheet "Sheet1")
  let mk := fun (r c : Int) (strat : String) (ci : Option Int) (cs : String) =>
    ResolvedInstance.mk sheet r c layout offsets
      (path.map (fun n => (OrgNode.name n).getD "")) node slot origin
      originName (some (slotIndex : Int)) strat ci cs
  match slot.locations with
  | some pts =>
      pts.enum.map (fun p =>
        let rr := p.2.row.getD 1
        let cc := p.2.col.getD defaultCol
        let colsrc :=
          if p.2.col.isSome then "loc"
          else if loc.col.isSome then "slot" else "node"
        mk rr cc "locations" (some (p.1 : Int)) colsrc)
  | none =>
      match loc.rows with
      | some rs =>
          rs.enum.map (fun p => mk p.2 defaultCol "rows" (some (p.1 : Int)) colSource)
      | none =>
          match loc.row with
          | some r => [mk r defaultCol "row" none colSource]
          | none =>
              match loc.startRow, loc.endRow with
              | some s, some e =>
                  (intRange s e).enum.map
                    (fun p => mk p.2 defaultCol "range" (some (p.1 : Int)) colSource)
              | _, _ => []

mutual

/-- The `visit` loop of `ConfigResolver.resolve_nodes` over a list of
sibling nodes (the `if node.get("children")` guard in the source only
skips the call on an empty list, which is behaviorally the same as
visiting the empty list). -/
def visitNodes (doc : Document) (path : List OrgNode) :
    List OrgNode → List ResolvedInstance
  | [] => []
  | n :: rest => visitNode doc path n ++ visitNodes doc path rest

/-- The body of the `visit` loop for one node: node-owned slots first, then
the slots of the referenced slot blueprint (when the reference is truthy
and names an existing blueprint), then the children. -/
def visitNode (doc : Document) (path : List OrgNode) :
    OrgNode → List ResolvedInstance
  | OrgNode.mk nm sh ly lo usf slots children =>
    let node := OrgNode.mk nm sh ly lo usf slots children
    let path2 := path ++ [node]
    let currentSheet := findInPath path2 OrgNode.sheetName
    let own := (slots.enum.map (fun p =>
      expandSlot doc p.2 path2 currentSheet node "node" none p.1)).flatten
    let bp :=
      match usf with
      | some bpName =>
          if bpName ≠ "" ∧ (doc.slotBlueprints.lookup bpName).isSome then
            (((doc.slotBlueprints.lookup bpName).getD []).enum.map (fun p =>
              expandSlot doc p.2 path2 currentSheet node "blueprint"
                (some bpName) p.1)).flatten
          else []
      | none => []
    own ++ bp ++ visitNodes doc path2 children

end

/-- `ConfigResolver.resolve`. -/
def resolve (doc : Document) : List ResolvedInstance :=
  visitNodes doc [] doc.organizationHierarchy

/-- `node.setdefault("location", {})["startCol"] = c`. -/
def OrgNode.withStartCol : OrgNode → Int → OrgNode
  | OrgNode.mk nm sh ly lo usf slots children, c =>
    OrgNode.mk nm sh ly (some { lo.getD {} with startCol := some c }) usf
      slots children

/-- The column write policy shared verbatim by the `rows`, `row` and
`range` branches of `apply_move`: write the slot's own `location.col` when
the slot already defines `col`, or the caller prefers a slot-level
override, or the instance's `col_source` is `"node"`; otherwise write the
owning node's `location.startCol`. Returns the updated location and node. -/
def applyColPolicy (loc : SlotLoc) (node : OrgNode) (colSource : String)
    (preferSlotColOverride : Bool) (newCol : Option Int) : SlotLoc × OrgNode :=
  match newCol with
  | none => (loc, node)
  | some c =>
    if loc.col.isSome ∨ preferSlotColOverride ∨ colSource = "node" then
      ({ loc with col := some c }, node)
    else
      (loc, node.withStartCol c)

/-- `ConfigResolver.apply_move`. The Python method mutates the dicts
reachable through `instance.slot_ref` / `instance.node_ref` in place; the
embedding returns the updated values of those two objects, and `none`
models an uncaught exception (the unchecked list subscript of the
`locations` branch). -/
def apply_move (inst : ResolvedInstance) (newRow : Int) (newCol : Option Int)
    (preferSlotColOverride : Bool) : Option (SlotDef × OrgNode) :=
  let slot := inst.slotRef
  let node := inst.nodeRef
  let loc := slot.location.getD {}
  if inst.coordStrategy = "locations" then
    match slot.locations, inst.coordIndex with
    | some pts, some ci =>
        match pyIndex pts.length ci with
        | some k =>
            match pts[k]? with
            | some pt =>
                let pt1 := { pt with row := some newRow }
                let pt2 := match newCol with
                  | some c => { pt1 with col := some c }
                  | none => pt1
                some ({ slot with locations := some (pts.set k pt2) }, node)
            | none => none
        | none => none
    | _, _ => some (slot, node)
  else if inst.coordStrategy = "rows" then
    let rows := loc.rows.getD []
    let rows2 := match inst.coordIndex with
      | some ci =>
          if 0 ≤ ci ∧ ci < (rows.length : Int) then rows.set ci.toNat newRow
          else rows
      | none => rows
    let loc2 := if loc.rows.isSome then { loc with rows := some rows2 } else loc
    let pair := applyColPolicy loc2 node inst.colSource preferSlotColOverride newCol
    some ({ slot with location := some pair.1 }, pair.2)
  else if inst.coordStrategy = "row" then
    let loc2 := { loc with row := some newRow }
    let pair := applyColPolicy loc2 node inst.colSource preferSlotColOverride newCol
    some ({ slot with location := some pair.1 }, pair.2)
  else if inst.coordStrategy = "range" then
    let startR := loc.startRow.getD inst.row
    let endR := loc.endRow.getD inst.row
    let index : Int := match inst.coordIndex with
      | some v => if v = 0 then 0 else v
      | none => 0
    let desired := newRow - index
    let delta := desired - startR
    let loc2 := { loc with startRow := some (startR + delta),
                           endRow := some (endR + delta) }
    let pair := applyColPolicy loc2 node inst.colSource preferSlotColOverride newCol
    some ({ slot with location := some pair.1 }, pair.2)
  else
    some (slot, node)

/-- Replace the `i`-th node-owned slot of a node. -/
def OrgNode.setSlot : OrgNode → Nat → SlotDef → OrgNode
  | OrgNode.mk nm sh ly lo usf slots children, i, s =>
    OrgNode.mk nm sh ly lo usf (slots.set i s) children

/-- Write the result of `apply_move` back into a document in which the
moved instance's node is the `ni`-th root node and its slot the `si`-th
node-owned slot of that node: the pure-value counterpart of the in-place
mutation through the instance's live `slot_ref`/`node_ref` aliases. -/
def applyMoveTop (doc : Document) (ni si : Nat) (inst : ResolvedInstance)
    (newRow : Int) (newCol : Option Int) (prefer : Bool) : Option Document :=
  match apply_move inst newRow newCol prefer with
  | none => none
  | some (slot2, node2) =>
      some { doc with organizationHierarchy :=
        doc.organizationHierarchy.set ni (node2.setSlot si slot2) }

/-- Set a node's `slots` to the detached copies and drop `useSlotsFrom`. -/
def OrgNode.detachedWith : OrgNode → List SlotDef → OrgNode
  | OrgNode.mk nm sh ly lo _ _ children, ss =>
    OrgNode.mk nm sh ly lo none ss children

/-- `ConfigResolver.detach_blueprint_for_node` on pure document values.
`dict_deepcopy` (a JSON round trip) copies values, which on the pure slot
values is the identity; the guards mirror `if not bp_name` and
`if not slots` (falsy name, missing blueprint, empty blueprint). -/
def detach_blueprint_for_node (doc : Document) (node : OrgNode) :
    OrgNode × Bool :=
  match node.useSlotsFrom with
  | none => (node, false)
  | some bpName =>
    if bpName = "" then (node, false)
    else
      match doc.slotBlueprints.lookup bpName with
      | none => (node, false)
      | some [] => (node, false)
      | some (s :: rest) => (node.detachedWith (s :: rest), true)

/-- Reference-semantics view of slot storage for the detach independence
property: slot dicts live in a store indexed by addresses, a node's
`slots` list and a blueprint collection hold addresses, and
`dict_deepcopy` allocates fresh cells holding copies of the referenced
values. `nodeSlots`/`nodeUseSlotsFrom` are the fields of the node being
detached. -/
structure HeapState where
  store : List SlotDef := []
  nodeSlots : List Nat := []
  nodeUseSlotsFrom : Option String := none
deriving Repr, Inhabited

/-- `detach_blueprint_for_node` under reference semantics: the blueprint
table maps names to address lists; on success the node's `slots` becomes a
list of freshly allocated addresses whose cells hold copies of the
blueprint's current slot values, and `useSlotsFrom` is removed. -/
def detachHeap (bps : List (String × List Nat)) (st : HeapState) :
    HeapState × Bool :=
  match st.nodeUseSlotsFrom with
  | none => (st, false)
  | some bpName =>
    if bpName = "" then (st, false)
    else
      match bps.lookup bpName with
      | none => (st, false)
      | some [] => (st, false)
      | some (a :: rest) =>
          let addrs := a :: rest
          ({ store := st.store ++ addrs.map (fun b => (st.store[b]?).getD {}),
             nodeSlots := (List.range addrs.length).map
               (fun k => st.store.length + k),
             nodeUseSlotsFrom := none }, true)

/-- In-place mutation of the slot object at address `a` (the semantics of
mutating any field of `node.slots[i]` through its reference). -/
def heapSet (st : HeapState) (a : Nat) (v : SlotDef) : HeapState :=
  { st with store := st.store.set a v }

/-- The rank uniqueness loop of `ThemisConfigModel.validate`, folding the
(seenNames, seenAbbrs, errors, warnings) state over `RANK_HIERARCHY`.
Message texts are modelled without the surrounding quote characters of the
Python f-strings. -/
def validateRanks (ranks : List Rank) : List String × List String :=
  let step := fun (acc : List String × List String × List String × List String)
      (r : Rank) =>
    let name := pyLower (pyStrip (pyStrOr r.name ""))
    let abbr := pyLower (pyStrip (pyStrOr r.abbr ""))
    let errs1 := if name = "" then
        acc.2.2.1 ++ ["Rank with empty name detected."] else acc.2.2.1
    let errs2 := if name ∈ acc.1 then
        errs1 ++ ["Duplicate rank name: " ++ r.name.getD ""] else errs1
    let warns2 := if abbr ≠ "" ∧ abbr ∈ acc.2.1 then
        acc.2.2.2 ++ ["Duplicate rank abbr: " ++ r.abbr.getD ""] else acc.2.2.2
    let seenA2 := if abbr ≠ "" then acc.2.1 ++ [abbr] else acc.2.1
    (acc.1 ++ [name], seenA2, errs2, warns2)
  let acc := ranks.foldl step ([], [], [], [])
  (acc.2.2.1, acc.2.2.2)

/-- The `SLOT_BLUEPRINTS` referential check of `validate`: every template
slot with a truthy `layout` not among the layout blueprint names yields an
error. -/
def slotBlueprintErrors (layouts : List String)
    (bps : List (String × List SlotDef)) : List String :=
  (bps.map (fun p => p.2.filterMap (fun s =>
    match s.layout with
    | some lay =>
        if lay ≠ "" ∧ lay ∉ layouts then
          some ("Slot blueprint " ++ p.1 ++ " references missing layout "
            ++ lay ++ ".")
        else none
    | none => none))).flatten

mutual

/-- The `visit` loop of the `ORGANIZATION_HIERARCHY` check of `validate`
over sibling nodes. -/
def validateNodes (layouts : List String)
    (bps : List (String × List SlotDef)) (path : List String) :
    List OrgNode → List String
  | [] => []
  | n :: rest => validateNode layouts bps path n
      ++ validateNodes layouts bps path rest

/-- The per-node body of the `ORGANIZATION_HIERARCHY` check: a truthy
`layout` must name a layout blueprint and a truthy `useSlotsFrom` must
name a slot blueprint. Note: the node-owned `slots` list is not examined.
The `if n.get("children")` guard only skips recursion on an empty list. -/
def validateNode (layouts : List String)
    (bps : List (String × List SlotDef)) (path : List String) :
    OrgNode → List String
  | OrgNode.mk nm _ ly _ usf _ children =>
    let e1 :=
      match ly with
      | some l =>
          if l ≠ "" ∧ l ∉ layouts then
            ["Node " ++ nm.getD "" ++ " at "
              ++ String.intercalate ">" (path ++ [nm.getD ""])
              ++ " uses missing layout " ++ l ++ "."]
          else []
      | none => []
    let e2 :=
      match usf with
      | some u =>
          if u ≠ "" ∧ (bps.lookup u).isNone then
            ["Node " ++ nm.getD "" ++ " uses missing slot blueprint "
              ++ u ++ "."]
          else []
      | none => []
    e1 ++ e2 ++ validateNodes layouts bps (path ++ [nm.getD "?"]) children

end

/-- The three recommended-setting warnings at the end of `validate`. -/
def sheetKeyWarnings (doc : Document) : List String :=
  (if pyStrOr doc.recruitmentLogSheetName "" = "" then
    ["Recommended setting missing: RECRUITMENT_LOG_SHEET_NAME"] else [])
  ++ (if pyStrOr doc.eventLogSheetName "" = "" then
    ["Recommended setting missing: EVENT_LOG_SHEET_NAME"] else [])
  ++ (if pyStrOr doc.attendanceSheetName "" = "" then
    ["Recommended setting missing: ATTENDANCE_SHEET_NAME"] else [])

/-- `ThemisConfigModel.validate`: the `(errors, warnings)` pair, with the
messages appended in the source's order (ranks, then template slots, then
organization nodes for errors; ranks, then layout `username` checks, then
recommended settings for warnings). -/
def validate (doc : Document) : List String × List String :=
  let r := validateRanks doc.rankHierarchy
  let layouts := doc.layoutBlueprints.map Prod.fst
  let layoutWarns := doc.layoutBlueprints.filterMap (fun p =>
    if (p.2.offsets.lookup "username").isNone then
      some ("Layout " ++ p.1 ++ " lacks username offset.")
    else none)
  let slotErrs := slotBlueprintErrors layouts doc.slotBlueprints
  let orgErrs := validateNodes layouts doc.slotBlueprints []
    doc.organizationHierarchy
  (r.1 ++ slotErrs ++ orgErrs, r.2 ++ layoutWarns ++ sheetKeyWarnings doc)

mutual

/-- Spec-side description of the resolution order (for the order claim):
the depth-first pre-order listing of (ancestor path, node) pairs, children
in array order. -/
def preorderNodes (path : List OrgNode) :
    List OrgNode → List (List OrgNode × OrgNode)
  | [] => []
  | n :: rest => preorderNode path n ++ preorderNodes path rest

/-- Spec-side description, single node: the node itself first, then its
children in array order. -/
def preorderNode (path : List OrgNode) :
    OrgNode → List (List OrgNode × OrgNode)
  | OrgNode.mk nm sh ly lo usf slots children =>
    let node := OrgNode.mk nm sh ly lo usf slots children
    (path ++ [node], node) :: preorderNodes (path ++ [node]) children

end

/-- Spec-side description of one node's contiguous block of instances:
node-owned slots expanded before template-inherited slots, each collection
in its stored order. -/
def nodeBlock (doc : Document) (pn : List OrgNode × OrgNode) :
    List ResolvedInstance :=
  let node := pn.2
  let path2 := pn.1
  let currentSheet := findInPath path2 OrgNode.sheetName
  let own := (node.slots.enum.map (fun p =>
    expandSlot doc p.2 path2 currentSheet node "node" none p.1)).flatten
  let bp :=
    match node.useSlotsFrom with
    | some bpName =>
        if bpName ≠ "" ∧ (doc.slotBlueprints.lookup bpName).isSome then
          (((doc.slotBlueprints.lookup bpName).getD []).enum.map (fun p =>
            expandSlot doc p.2 path2 currentSheet node "blueprint"
              (some bpName) p.1)).flatten
        else []
    | none => []
  own ++ bp

/-- Spec-side description of the whole resolution pass: the concatenation
of the per-node blocks along the depth-first pre-order. -/
def resolveSpecOrder (doc : Document) : List ResolvedInstance :=
  ((preorderNodes [] doc.organizationHierarchy).map (nodeBlock doc)).flatten

/-- The instance at position `i` of a document's resolution (defaulted). -/
def instAt (d : Document) (i : Nat) : ResolvedInstance :=
  (resolve d).getD i default

/-- The resolution-relevant fields of an instance: everything except the
live back-references `nodeRef`/`slotRef` (which by construction record
the slot and node objects themselves). -/
def instView (i : ResolvedInstance) :
    String × Int × Int × String × List (String × FieldOffset)
      × List String × String × Option String × Option Int × String
      × Option Int × String :=
  (i.sheet, i.row, i.col, i.layout, i.offsets, i.nodePathNames, i.origin,
   i.originName, i.slotIndex, i.coordStrategy, i.coordIndex, i.colSource)

/-! Concrete scenario documents used by the counterexamples and witnesses. -/

/-- Column blast radius scenario, first sibling slot: single-row style, no
column of its own. -/
def C1slotA : SlotDef := { location := some { row := some 10 } }

/-- Column blast radius scenario, second sibling slot. -/
def C1slotB : SlotDef := { location := some { row := some 20 } }

/-- Column blast radius scenario: one node defining `startCol = 4` with the
two sibling slots, neither defining its own `col`. -/
def C1node : OrgNode :=
  OrgNode.mk (some "Unit") none none (some { startCol := some 4 }) none
    [C1slotA, C1slotB] []

/-- Column blast radius scenario document. -/
def C1doc : Document := { organizationHierarchy := [C1node] }

/-- A document whose single slot has `location.rows = [10]`, resolved before
the row list shrinks. -/
def C2docBefore : Document :=
  { organizationHierarchy :=
      [OrgNode.mk (some "Unit") none none (some { startCol := some 4 }) none
        [{ location := some { rows := some [10] } }] []] }

/-- The same slot after its `rows` list shrank to `[]` in place. -/
def C2slotShrunk : SlotDef := { location := some { rows := some [] } }

/-- An instance resolved from `C2docBefore` whose live `slot_ref` now shows
the shrunken row list: its `coord_index = 0` is out of bounds. -/
def C2inst : ResolvedInstance :=
  { instAt C2docBefore 0 with slotRef := C2slotShrunk }

/-- A document whose single slot has an explicit one-point `locations`
list, resolved before that list shrinks. -/
def C2docLocsBefore : Document :=
  { organizationHierarchy :=
      [OrgNode.mk (some "Unit") none none none none
        [{ locations := some [{ row := some 10 }] }] []] }

/-- The same slot after its `locations` list shrank to `[]` in place. -/
def C2slotLocsShrunk : SlotDef := { locations := some [] }

/-- An instance resolved from `C2docLocsBefore` whose live `slot_ref` now
shows the shrunken `locations` list. -/
def C2instLocs : ResolvedInstance :=
  { instAt C2docLocsBefore 0 with slotRef := C2slotLocsShrunk }

/-- Detach scenario: a node-owned slot present before the detach. -/
def C3own : SlotDef := { title := some "own" }

/-- Detach scenario: the slot stored in the referenced template. -/
def C3tpl : SlotDef := { title := some "tpl", location := some { row := some 3 } }

/-- Detach scenario: a node owning `C3own` and referencing template `T`. -/
def C3node : OrgNode :=
  OrgNode.mk (some "Unit") none none none (some "T") [C3own] []

/-- Detach scenario document. -/
def C3doc : Document :=
  { slotBlueprints := [("T", [C3tpl])], organizationHierarchy := [C3node] }

/-- Heap-model detach scenario: one template slot at address 0, referenced
by the node about to be detached. -/
def C4heap : HeapState :=
  { store := [{ title := some "t0" }], nodeSlots := [],
    nodeUseSlotsFrom := some "T" }

/-- Heap-model blueprint table for the detach scenario. -/
def C4bps : List (String × List Nat) := [("T", [0])]

/-- Row-range scenario: a slot spanning rows 14–15. -/
def C5slot : SlotDef :=
  { location := some { startRow := some 14, endRow := some 15 } }

/-- Row-range scenario document. -/
def C5doc : Document :=
  { organizationHierarchy :=
      [OrgNode.mk (some "Unit") none none none none [C5slot] []] }

/-- End-to-end composition template: one row-list slot, one 2-row range,
one 23-row range. -/
def C6bp : List SlotDef :=
  [{ location := some { rows := some [12] } },
   { location := some { startRow := some 14, endRow := some 15 } },
   { location := some { startRow := some 17, endRow := some 39 } }]

/-- End-to-end composition document: a node referencing the template. -/
def C6doc : Document :=
  { slotBlueprints := [("BP", C6bp)],
    organizationHierarchy :=
      [OrgNode.mk (some "Unit") none none none (some "BP") [] []] }

/-- A node-owned slot referencing a layout name absent from the Layout
Offset Table. -/
def C7slot : SlotDef :=
  { layout := some "Missing", location := some { row := some 1 } }

/-- Document with the dangling node-owned slot reference (and an otherwise
clean configuration). -/
def C7doc : Document :=
  { organizationHierarchy :=
      [OrgNode.mk (some "Unit") none none none none [C7slot] []] }

/-- A template slot referencing a layout name absent from the table. -/
def C7wslot : SlotDef :=
  { layout := some "Nope", location := some { row := some 1 } }

/-- Document whose slot blueprint `BP` contains the dangling reference. -/
def C7wdoc : Document := { slotBlueprints := [("BP", [C7wslot])] }

/-- A node-owned slot referencing the unknown layout `Ghost`. -/
def C9slot : SlotDef :=
  { layout := some "Ghost", location := some { row := some 2 } }

/-- Graceful degradation scenario document. -/
def C9doc : Document :=
  { organizationHierarchy :=
      [OrgNode.mk (some "Unit") none none none none [C9slot] []] }

/-- Falsy-inheritance scenario: a slot with empty-string `layout` and
empty-string `location.sheetName`. -/
def C10slot : SlotDef :=
  { layout := some "", location := some { row := some 5, sheetName := some "" } }

/-- Falsy-inheritance scenario: inner node defining empty-string
`layout` and `sheetName`. -/
def C10child : OrgNode :=
  OrgNode.mk (some "B") (some "") (some "") none none [C10slot] []

/-- Falsy-inheritance scenario: outer node defining the truthy layout `L`
and sheet `S`. -/
def C10root : OrgNode :=
  OrgNode.mk (some "A") (some "S") (some "L") none none [] [C10child]

/-- Falsy-inheritance scenario document (layout `L` exists in the table). -/
def C10doc : Document :=
  { layoutBlueprints := [("L", { offsets := [("username", {})] })],
    organizationHierarchy := [C10root] }

/-! Helper lemmas (shared facts about the embedding). -/

mutual

theorem visitNodes_eq_spec (doc : Document) (path : List OrgNode) :
    (ns : List OrgNode) → visitNodes doc path ns
      = ((preorderNodes path ns).map (nodeBlock doc)).flatten
  | [] => rfl
  | n :: rest => by
      have h1 := visitNode_eq_spec doc path n
      have h2 := visitNodes_eq_spec doc path rest
      simp only [visitNodes, preorderNodes, List.map_append,
        List.flatten_append, h1, h2]

theorem visitNode_eq_spec (doc : Document) (path : List OrgNode) :
    (n : OrgNode) → visitNode doc path n
      = ((preorderNode path n).map (nodeBlock doc)).flatten
  | OrgNode.mk nm sh ly lo usf slots children => by
      have h := visitNodes_eq_spec doc
        (path ++ [OrgNode.mk nm sh ly lo usf slots children]) children
      simp only [visitNode, preorderNode, List.map_cons, List.flatten_cons,
        h, nodeBlock, OrgNode.slots, OrgNode.useSlotsFrom,
        List.append_assoc]

end

theorem intRange_length (s e : Int) :
    (intRange s e).length = (e + 1 - s).toNat := by
  rw [intRange, List.length_map, List.length_range]

theorem intRange_getElem? (s e : Int) (k : Nat) (h : k < (e + 1 - s).toNat) :
    (intRange s e)[k]? = some (s + (k : Int)) := by
  rw [intRange, List.getElem?_map, List.getElem?_range h]; rfl

theorem expandSlot_fields_eq (doc : Document) (slot : SlotDef)
    (path : List OrgNode) (cs : Option String) (node : OrgNode)
    (origin : String) (originName : Option String) (slotIndex : Nat) :
    ∀ inst ∈ expandSlot doc slot path cs node origin originName slotIndex,
      inst.offsets
        = ((doc.layoutBlueprints.lookup inst.layout).getD {}).offsets
      ∧ inst.layout
        = pyStrOr slot.layout (pyStrOr (findInPath path OrgNode.layout) "") := by
  intro inst hinst
  rcases hlocs : slot.locations with _ | pts
  · rcases hrows : (slot.location.getD {}).rows with _ | rs
    · rcases hrow : (slot.location.getD {}).row with _ | r
      · rcases hsr : (slot.location.getD {}).startRow with _ | s
        · simp only [expandSlot, hlocs, hrows, hrow, hsr] at hinst
          simp at hinst
        · rcases her : (slot.location.getD {}).endRow with _ | e
          · simp only [expandSlot, hlocs, hrows, hrow, hsr, her] at hinst
            simp at hinst
          · simp only [expandSlot, hlocs, hrows, hrow, hsr, her] at hinst
            obtain ⟨p, _, rfl⟩ := List.mem_map.mp hinst
            exact ⟨rfl, rfl⟩
      · simp only [expandSlot, hlocs, hrows, hrow] at hinst
        simp only [List.mem_singleton] at hinst
        subst hinst
        exact ⟨rfl, rfl⟩
    · simp only [expandSlot, hlocs, hrows] at hinst
      obtain ⟨p, _, rfl⟩ := List.mem_map.mp hinst
      exact ⟨rfl, rfl⟩
  · simp only [expandSlot, hlocs] at hinst
    obtain ⟨p, _, rfl⟩ := List.mem_map.mp hinst
    exact ⟨rfl, rfl⟩

mutual

theorem visitNodes_offsets_eq (doc : Document) (path : List OrgNode) :
    (ns : List OrgNode) → ∀ inst ∈ visitNodes doc path ns,
      inst.offsets
        = ((doc.layoutBlueprints.lookup inst.layout).getD {}).offsets
  | [] => by intro inst h; simp [visitNodes] at h
  | n :: rest => by
      intro inst h
      simp only [visitNodes] at h
      rcases List.mem_append.mp h with h1 | h2
      · exact visitNode_offsets_eq doc path n inst h1
      · exact visitNodes_offsets_eq doc path rest inst h2

theorem visitNode_offsets_eq (doc : Document) (path : List OrgNode) :
    (n : OrgNode) → ∀ inst ∈ visitNode doc path n,
      inst.offsets
        = ((doc.layoutBlueprints.lookup inst.layout).getD {}).offsets
  | OrgNode.mk nm sh ly lo usf slots children => by
      intro inst h
      simp only [visitNode] at h
      rcases List.mem_append.mp h with h1 | hkids
      · rcases List.mem_append.mp h1 with hown | hbp
        · obtain ⟨l, hl, hil⟩ := List.mem_flatten.mp hown
          obtain ⟨p, _, rfl⟩ := List.mem_map.mp hl
          exact (expandSlot_fields_eq doc p.2 _ _ _ _ _ _ inst hil).1
        · rcases usf with _ | bpName
          · simp at hbp
          · dsimp only at hbp
            split at hbp
            · obtain ⟨l, hl, hil⟩ := List.mem_flatten.mp hbp
              obtain ⟨p, _, rfl⟩ := List.mem_map.mp hl
              exact (expandSlot_fields_eq doc p.2 _ _ _ _ _ _ inst hil).1
            · simp at hbp
      · exact visitNodes_offsets_eq doc
          (path ++ [OrgNode.mk nm sh ly lo usf slots children]) children
          inst hkids

end

/-! Claim theorems. -/

/-- C1 (counterexample): in the blast-radius scenario — one node with
`location.startCol = 4` and two sibling slots, neither defining its own
`col`, both resolving with `col_source = "node"` (the spec's `ancestor`) —
moving the first slot's instance to column 7 with
`prefer_slot_column_override = False` does NOT change the sibling's
resolved column on the next `resolve()`: the columns afterwards are
`[7, 4]`, not `[7, 7]` as the claim predicts, because the write lands in
the moved slot's own `location.col` rather than the node's `startCol`. -/
theorem C1_counterexample :
    (resolve C1doc).map (fun i => (i.col, i.colSource))
      = [(4, "node"), (4, "node")]
    ∧ (applyMoveTop C1doc 0 0 (instAt C1doc 0) 10 (some 7) false).map
        (fun d => (resolve d).map (fun i => i.col)) = some [7, 4] :=
  ⟨rfl, rfl⟩

/-- C1 (amended): for any instance of the `rows`, `row` or `range`
strategy whose `col_source` is `"node"` (the spec's `ancestor`),
`apply_move` with a new column and `prefer_slot_column_override = False`
writes the new column into the slot's own `location.col` and returns the
owning node unchanged — so sibling slots that inherit the node's
`startCol` are unaffected. -/
theorem C1_amended_col_write (inst : ResolvedInstance) (r c : Int)
    (hstrat : inst.coordStrategy = "rows" ∨ inst.coordStrategy = "row"
      ∨ inst.coordStrategy = "range")
    (hcs : inst.colSource = "node") :
    (apply_move inst r (some c) false).map
      (fun p => ((p.1.location.getD {}).col, p.2))
    = some (some c, inst.nodeRef) := by
  rcases hstrat with h | h | h <;>
    simp [apply_move, applyColPolicy, h, hcs]

/-- C1 witness: the amended statement at the concrete blast-radius
scenario's first instance. -/
theorem C1_amended_witness :
    (apply_move (instAt C1doc 0) 10 (some 7) false).map
      (fun p => ((p.1.location.getD {}).col, p.2))
    = some (some 7, (instAt C1doc 0).nodeRef) :=
  C1_amended_col_write (instAt C1doc 0) 10 7 (Or.inr (Or.inl rfl)) rfl

/-- C2 (counterexample): `apply_move` on an instance whose `coord_index`
is out of bounds is NOT a silent no-op. For the `rows` strategy (instance
resolved from `rows = [10]`, the list then shrunk to `[]` in place): the
row write is skipped, but a supplied new column is still written to the
slot's `location.col` — a partial mutation of the slot. For the
`locations` strategy (one-point list shrunk to `[]`): the unchecked
subscript raises (`none`). -/
theorem C2_counterexample :
    ((C2inst.slotRef.location.getD {}).col = none
      ∧ (apply_move C2inst 5 (some 7) false).map
          (fun p => ((p.1.location.getD {}).col, (p.1.location.getD {}).rows))
        = some (some 7, some []))
    ∧ apply_move C2instLocs 5 (some 7) false = none :=
  ⟨⟨rfl, rfl⟩, rfl⟩

/-- C2 (amended): for a `rows`-strategy instance whose `coord_index` is
out of bounds for the current row list, a row-only move is a silent no-op
(no exception, nothing changes), but a move that also supplies a new
column still writes the column (here for `col_source = "node"`, to the
slot's own `location.col`) while leaving the row list unchanged; for a
`locations`-strategy instance an out-of-bounds `coord_index` raises. -/
theorem C2_amended_out_of_bounds (inst : ResolvedInstance) (r c : Int) :
    (∀ l rs ci, inst.coordStrategy = "rows"
      → inst.slotRef.location = some l → l.rows = some rs
      → inst.coordIndex = some ci → (rs.length : Int) ≤ ci
      → apply_move inst r none false = some (inst.slotRef, inst.nodeRef))
    ∧ (∀ l rs ci, inst.coordStrategy = "rows"
      → inst.slotRef.location = some l → l.rows = some rs
      → inst.coordIndex = some ci → (rs.length : Int) ≤ ci
      → inst.colSource = "node"
      → (apply_move inst r (some c) false).map
          (fun p => ((p.1.location.getD {}).rows, (p.1.location.getD {}).col))
        = some (some rs, some c))
    ∧ (∀ pts ci, inst.coordStrategy = "locations"
      → inst.slotRef.locations = some pts → inst.coordIndex = some ci
      → (pts.length : Int) ≤ ci
      → apply_move inst r (some c) false = none) := by
  refine ⟨?_, ?_, ?_⟩
  · intro l rs ci hstrat hloc hrows hci hlen
    have hb : ¬(0 ≤ ci ∧ ci < (rs.length : Int)) := by omega
    obtain ⟨lc, lsn, lrw, lr, lsr, ler⟩ := l
    simp only [SlotLoc.rows] at hrows
    subst hrows
    simp only [apply_move, applyColPolicy, hstrat, hloc, hci, hb]
    simp [hb]
    rw [← hloc]
  · intro l rs ci hstrat hloc hrows hci hlen hcs
    have hb : ¬(0 ≤ ci ∧ ci < (rs.length : Int)) := by omega
    obtain ⟨lc, lsn, lrw, lr, lsr, ler⟩ := l
    simp only [SlotLoc.rows] at hrows
    subst hrows
    simp [apply_move, applyColPolicy, hstrat, hloc, hci, hb, hcs]
  · intro pts ci hstrat hlocs hci hlen
    have h0 : (0 : Int) ≤ ci := by omega
    have h1 : ¬(ci < (pts.length : Int)) := by omega
    simp [apply_move, pyIndex, hstrat, hlocs, hci, h0, h1]

/-- C2 witness: the amended statement at the concrete shrunken-list
instances. -/
theorem C2_amended_witness :
    apply_move C2inst 5 none false = some (C2inst.slotRef, C2inst.nodeRef)
    ∧ (apply_move C2inst 5 (some 7) false).map
        (fun p => ((p.1.location.getD {}).rows, (p.1.location.getD {}).col))
      = some (some [], some 7)
    ∧ apply_move C2instLocs 5 (some 7) false = none :=
  ⟨(C2_amended_out_of_bounds C2inst 5 7).1 { rows := some [] } [] 0
      rfl rfl rfl rfl (by decide),
   (C2_amended_out_of_bounds C2inst 5 7).2.1 { rows := some [] } [] 0
      rfl rfl rfl rfl (by decide) rfl,
   (C2_amended_out_of_bounds C2instLocs 5 7).2.2 [] 0
      rfl rfl rfl (by decide)⟩

/-- C3 (counterexample): detach does NOT append to an existing node-owned
slot collection. In a scenario with one node-owned slot `C3own` and a
referenced template `T = [C3tpl]`, detach leaves `node.slots = [C3tpl]`
— the pre-existing own slot is discarded, not kept in front. -/
theorem C3_counterexample :
    (detach_blueprint_for_node C3doc C3node).1.slots = [C3tpl]
    ∧ C3node.slots = [C3own]
    ∧ (detach_blueprint_for_node C3doc C3node).1.slots ≠ [C3own, C3tpl] :=
  ⟨rfl, rfl, by decide⟩

/-- C3 (amended): when `useSlotsFrom` truthily names an existing,
non-empty template, detach copies the template's slot definitions into
`node.slots`, REPLACING any existing node-owned collection (establishing
it if absent), removes `useSlotsFrom`, preserves every other node field
and returns `true`; with no template reference, an empty-string
reference, a missing template or an empty template it returns `false` and
changes nothing. -/
theorem C3_amended_detach_replaces (doc : Document) (node : OrgNode) :
    (∀ bpName ss, node.useSlotsFrom = some bpName → bpName ≠ ""
      → doc.slotBlueprints.lookup bpName = some ss → ss ≠ []
      → (detach_blueprint_for_node doc node).2 = true
        ∧ (detach_blueprint_for_node doc node).1.slots = ss
        ∧ (detach_blueprint_for_node doc node).1.useSlotsFrom = none
        ∧ (detach_blueprint_for_node doc node).1.name = node.name
        ∧ (detach_blueprint_for_node doc node).1.sheetName = node.sheetName
        ∧ (detach_blueprint_for_node doc node).1.layout = node.layout
        ∧ (detach_blueprint_for_node doc node).1.location = node.location
        ∧ (detach_blueprint_for_node doc node).1.children = node.children)
    ∧ (node.useSlotsFrom = none
      → detach_blueprint_for_node doc node = (node, false))
    ∧ (node.useSlotsFrom = some ""
      → detach_blueprint_for_node doc node = (node, false))
    ∧ (∀ bpName, node.useSlotsFrom = some bpName
      → doc.slotBlueprints.lookup bpName = none
      → detach_blueprint_for_node doc node = (node, false))
    ∧ (∀ bpName, node.useSlotsFrom = some bpName
      → doc.slotBlueprints.lookup bpName = some []
      → detach_blueprint_for_node doc node = (node, false)) := by
  obtain ⟨nm, sh, ly, lo, usf, slots, children⟩ := node
  refine ⟨?_, ?_, ?_, ?_, ?_⟩
  · intro bpName ss husf hne hlk hss
    simp only [OrgNode.useSlotsFrom] at husf
    subst husf
    rcases ss with _ | ⟨s, rest⟩
    · exact absurd rfl hss
    · simp [detach_blueprint_for_node, OrgNode.useSlotsFrom, hne, hlk,
        OrgNode.detachedWith, OrgNode.slots, OrgNode.name,
        OrgNode.sheetName, OrgNode.layout, OrgNode.location,
        OrgNode.children]
  · intro husf
    simp only [OrgNode.useSlotsFrom] at husf
    subst husf
    simp [detach_blueprint_for_node, OrgNode.useSlotsFrom]
  · intro husf
    simp only [OrgNode.useSlotsFrom] at husf
    subst husf
    simp [detach_blueprint_for_node, OrgNode.useSlotsFrom]
  · intro bpName husf hlk
    simp only [OrgNode.useSlotsFrom] at husf
    subst husf
    by_cases hne : bpName = ""
    · subst hne
      simp [detach_blueprint_for_node, OrgNode.useSlotsFrom]
    · simp [detach_blueprint_for_node, OrgNode.useSlotsFrom, hne, hlk]
  · intro bpName husf hlk
    simp only [OrgNode.useSlotsFrom] at husf
    subst husf
    by_cases hne : bpName = ""
    · subst hne
      simp [detach_blueprint_for_node, OrgNode.useSlotsFrom]
    · simp [detach_blueprint_for_node, OrgNode.useSlotsFrom, hne, hlk]

/-- C3 witness: the amended success case at the concrete detach
scenario. -/
theorem C3_amended_witness :
    (detach_blueprint_for_node C3doc C3node).2 = true
    ∧ (detach_blueprint_for_node C3doc C3node).1.slots = [C3tpl]
    ∧ (detach_blueprint_for_node C3doc C3node).1.useSlotsFrom = none :=
  let h := (C3_amended_detach_replaces C3doc C3node).1 "T" [C3tpl]
    rfl (by decide) rfl (by decide)
  ⟨h.1, h.2.1, h.2.2.1⟩

/-- C4: detach independence, under the reference-semantics model of slot
storage. After a successful detach, the node's slot addresses are freshly
allocated, so mutating any of them (writing any new slot value `v`, which
subsumes mutating any field) leaves every pre-existing cell — in
particular every slot of the original template, and the slots of every
other node still referencing it — unchanged, and `useSlotsFrom` is gone. -/
theorem C4_detach_independence (bps : List (String × List Nat))
    (st st2 : HeapState) (h : detachHeap bps st = (st2, true))
    (a : Nat) (ha : a ∈ st2.nodeSlots) (v : SlotDef)
    (b : Nat) (hb : b < st.store.length) :
    (heapSet st2 a v).store[b]? = st.store[b]?
    ∧ st2.store[b]? = st.store[b]?
    ∧ st2.nodeUseSlotsFrom = none := by
  rcases husf : st.nodeUseSlotsFrom with _ | bp
  · simp only [detachHeap, husf] at h
    simp at h
  · simp only [detachHeap, husf] at h
    by_cases hbp : bp = ""
    · rw [if_pos hbp] at h
      simp at h
    · rw [if_neg hbp] at h
      rcases hlk : bps.lookup bp with _ | ss
      · simp only [hlk] at h
        simp at h
      · simp only [hlk] at h
        rcases ss with _ | ⟨a0, rest⟩
        · simp at h
        · injection h with h1 h2
          subst h1
          have ha2 : a ∈ (List.range (a0 :: rest).length).map
              (fun k => st.store.length + k) := ha
          obtain ⟨k, hk, rfl⟩ := List.mem_map.mp ha2
          have hane : st.store.length + k ≠ b := by omega
          refine ⟨?_, List.getElem?_append_left hb, rfl⟩
          show ((st.store ++ (a0 :: rest).map
              (fun b2 => (st.store[b2]?).getD {})).set
                (st.store.length + k) v)[b]?
            = st.store[b]?
          rw [List.getElem?_set_ne hane]
          exact List.getElem?_append_left hb

/-- C4 witness: the independence statement at the concrete one-slot
template heap. -/
theorem C4_witness :
    (heapSet (detachHeap C4bps C4heap).1 1
        { title := some "mutated" }).store[0]? = C4heap.store[0]?
    ∧ (detachHeap C4bps C4heap).1.nodeUseSlotsFrom = none :=
  let h := C4_detach_independence C4bps C4heap (detachHeap C4bps C4heap).1
    rfl 1 (by decide) { title := some "mutated" } 0 (by decide)
  ⟨h.1, h.2.2⟩

/-- C5: for every `range`-strategy instance with `coord_index = i`,
`apply_move` to `new_row = r` sets `startRow` to `r − i` and shifts
`endRow` by the same delta, preserving the range's span. (The concrete
spec scenario — `startRow = 14`, `endRow = 15`, moving the
`coord_index = 1` instance to row 20 yielding `startRow = 19`,
`endRow = 20` — is checked in the witness.) -/
theorem C5_row_range_move (inst : ResolvedInstance) (s e i r : Int)
    (hstrat : inst.coordStrategy = "range")
    (hs : (inst.slotRef.location.getD {}).startRow = some s)
    (he : (inst.slotRef.location.getD {}).endRow = some e)
    (hi : inst.coordIndex = some i) :
    (apply_move inst r none false).map (fun p =>
      ((p.1.location.getD {}).startRow, (p.1.location.getD {}).endRow))
    = some (some (r - i), some (e + (r - i - s))) := by
  by_cases h0 : i = 0 <;>
    simp [apply_move, applyColPolicy, hstrat, hs, he, hi, h0]

/-- C5 witness: the statement at the spec's concrete range scenario. -/
theorem C5_witness :
    (apply_move (instAt C5doc 1) 20 none false).map (fun p =>
      ((p.1.location.getD {}).startRow, (p.1.location.getD {}).endRow))
    = some (some 19, some 20) := by
  have h := C5_row_range_move (instAt C5doc 1) 14 15 1 20 rfl rfl rfl rfl
  simpa using h

/-- C6: slot expansion uses exactly the first matching of the four
addressing styles in fixed precedence — `slot.locations`, then
`location.rows`, then `location.row`, then `location.startRow`/`endRow` —
producing respectively `len(locations)`, `len(rows)`, `1` and
`endRow − startRow + 1` instances (range inclusive, rows ascending,
`coord_index` zero-based); a slot matching none of the styles produces
zero instances; and the spec's composition document resolves to exactly
`1 + 2 + 23 = 26` instances for the referencing node, in slot order. -/
theorem C6_expansion_styles (doc : Document) (slot : SlotDef)
    (path : List OrgNode) (cs : Option String) (node : OrgNode)
    (og : String) (onm : Option String) (si : Nat) :
    (∀ pts, slot.locations = some pts
      → (expandSlot doc slot path cs node og onm si).length = pts.length
        ∧ ∀ inst ∈ expandSlot doc slot path cs node og onm si,
            inst.coordStrategy = "locations")
    ∧ (∀ rs, slot.locations = none
      → (slot.location.getD {}).rows = some rs
      → (expandSlot doc slot path cs node og onm si).length = rs.length
        ∧ ∀ inst ∈ expandSlot doc slot path cs node og onm si,
            inst.coordStrategy = "rows")
    ∧ (∀ r, slot.locations = none
      → (slot.location.getD {}).rows = none
      → (slot.location.getD {}).row = some r
      → (expandSlot doc slot path cs node og onm si).map
          (fun i => (i.row, i.coordStrategy, i.coordIndex))
        = [(r, "row", none)])
    ∧ (∀ s e, slot.locations = none
      → (slot.location.getD {}).rows = none
      → (slot.location.getD {}).row = none
      → (slot.location.getD {}).startRow = some s
      → (slot.location.getD {}).endRow = some e
      → s ≤ e
      → (((expandSlot doc slot path cs node og onm si).length : Int)
            = e - s + 1
        ∧ ∀ k, k < (expandSlot doc slot path cs node og onm si).length
          → ((expandSlot doc slot path cs node og onm si)[k]?).map
              (fun i => (i.row, i.coordStrategy, i.coordIndex))
            = some (s + (k : Int), "range", some (k : Int))))
    ∧ (slot.locations = none
      → (slot.location.getD {}).rows = none
      → (slot.location.getD {}).row = none
      → ((slot.location.getD {}).startRow = none
          ∨ (slot.location.getD {}).endRow = none)
      → expandSlot doc slot path cs node og onm si = [])
    ∧ ((resolve C6doc).length = 26
      ∧ (resolve C6doc).map (fun i => i.slotIndex)
        = [some 0] ++ [some 1, some 1] ++ List.replicate 23 (some 2)) := by
  refine ⟨?_, ?_, ?_, ?_, ?_, by decide, by decide⟩
  · intro pts h
    refine ⟨by simp [expandSlot, h], ?_⟩
    intro inst hinst
    simp only [expandSlot, h] at hinst
    obtain ⟨p, _, rfl⟩ := List.mem_map.mp hinst
    rfl
  · intro rs hlocs hrows
    refine ⟨by simp [expandSlot, hlocs, hrows], ?_⟩
    intro inst hinst
    simp only [expandSlot, hlocs, hrows] at hinst
    obtain ⟨p, _, rfl⟩ := List.mem_map.mp hinst
    rfl
  · intro r hlocs hrows hrow
    simp [expandSlot, hlocs, hrows, hrow]
  · intro s e hlocs hrows hrow hsr her hse
    have hlen : (expandSlot doc slot path cs node og onm si).length
        = (e + 1 - s).toNat := by
      simp only [expandSlot, hlocs, hrows, hrow, hsr, her, List.length_map,
        List.enum_length, intRange_length]
    constructor
    · rw [hlen, Int.toNat_of_nonneg (by omega)]
      omega
    · intro k hk
      have hk2 : k < (e + 1 - s).toNat := by rw [hlen] at hk; exact hk
      simp only [expandSlot, hlocs, hrows, hrow, hsr, her,
        List.getElem?_map, List.getElem?_enum,
        intRange_getElem? s e k hk2]
      rfl
  · intro hlocs hrows hrow h45
    rcases h45 with hsr | her
    · simp [expandSlot, hlocs, hrows, hrow, hsr]
    · rcases hsr : (slot.location.getD {}).startRow with _ | s <;>
        simp [expandSlot, hlocs, hrows, hrow, hsr, her]

/-- C6 witness: the style cases at concrete slots (explicit points,
row list, single row, 14–15 range, and a style-less slot). -/
theorem C6_witness :
    (expandSlot C1doc { locations := some [{ row := some 2 }] } [] none
      C1node "node" none 0).length = 1
    ∧ (expandSlot C1doc { location := some { rows := some [3, 4] } } []
        none C1node "node" none 0).length = 2
    ∧ (expandSlot C1doc { location := some { row := some 9 } } [] none
        C1node "node" none 0).map
          (fun i => (i.row, i.coordStrategy, i.coordIndex))
      = [(9, "row", none)]
    ∧ ((expandSlot C1doc C5slot [] none C1node "node" none 0).length : Int)
      = 15 - 14 + 1
    ∧ expandSlot C1doc { location := some { startRow := some 5 } } [] none
        C1node "node" none 0 = [] :=
  ⟨((C6_expansion_styles C1doc { locations := some [{ row := some 2 }] }
      [] none C1node "node" none 0).1 [{ row := some 2 }] rfl).1,
   ((C6_expansion_styles C1doc { location := some { rows := some [3, 4] } }
      [] none C1node "node" none 0).2.1 [3, 4] rfl rfl).1,
   (C6_expansion_styles C1doc { location := some { row := some 9 } }
      [] none C1node "node" none 0).2.2.1 9 rfl rfl rfl,
   ((C6_expansion_styles C1doc C5slot [] none C1node "node" none 0).2.2.2.1
      14 15 rfl rfl rfl rfl rfl (by decide)).1,
   (C6_expansion_styles C1doc { location := some { startRow := some 5 } }
      [] none C1node "node" none 0).2.2.2.2.1 rfl rfl rfl (Or.inr rfl)⟩

/-- C7 (counterexample): the validator does NOT report slots in node-owned
collections whose `layout` reference is missing from the Layout Offset
Table. `C7doc` contains exactly one slot, node-owned, whose `layout`
resolves to the unknown name `Missing` (shown via `resolve` and the empty
table), yet `validate` returns no errors at all. -/
theorem C7_counterexample :
    (validate C7doc).1 = []
    ∧ (resolve C7doc).map (fun i => i.layout) = ["Missing"]
    ∧ C7doc.layoutBlueprints.lookup "Missing" = none :=
  ⟨rfl, rfl, rfl⟩

/-- C7 (amended): the validator reports an error for every slot inside a
slot template whose truthy `layout` reference does not exist in the
Layout Offset Table (and, being a pure function of the document, it
mutates nothing and raises nothing); slots in node-owned collections are
not checked. -/
theorem C7_amended_template_layout_errors (doc : Document)
    (bpName : String) (ss : List SlotDef) (s : SlotDef) (lay : String)
    (hbp : (bpName, ss) ∈ doc.slotBlueprints) (hs : s ∈ ss)
    (hlay : s.layout = some lay) (hne : lay ≠ "")
    (hmiss : lay ∉ doc.layoutBlueprints.map Prod.fst) :
    ("Slot blueprint " ++ bpName ++ " references missing layout "
      ++ lay ++ ".") ∈ (validate doc).1 := by
  have hmsg : ("Slot blueprint " ++ bpName ++ " references missing layout "
      ++ lay ++ ".")
      ∈ slotBlueprintErrors (doc.layoutBlueprints.map Prod.fst)
          doc.slotBlueprints := by
    apply List.mem_flatten.mpr
    refine ⟨_, List.mem_map.mpr ⟨(bpName, ss), hbp, rfl⟩, ?_⟩
    apply List.mem_filterMap.mpr
    refine ⟨s, hs, ?_⟩
    rw [hlay]
    simp only [if_pos (And.intro hne hmiss)]
  simp only [validate]
  exact List.mem_append.mpr (Or.inl (List.mem_append.mpr (Or.inr hmsg)))

/-- C7 witness: the amended statement at the concrete template with a
dangling layout reference. -/
theorem C7_witness :
    ("Slot blueprint " ++ "BP" ++ " references missing layout "
      ++ "Nope" ++ ".") ∈ (validate C7wdoc).1 :=
  C7_amended_template_layout_errors C7wdoc "BP" [C7wslot] C7wslot "Nope"
    (by decide) (by decide) rfl (by decide) (by decide)

/-- C8: `resolve` run twice on the same document yields identical ordered
output (the embedding is a pure function, mirroring that the Python pass
re-derives everything and mutates nothing), and the output order equals
the spec-side description: depth-first pre-order over children in array
order, node-owned slots before template-inherited slots, each collection
in stored order. -/
theorem C8_resolve_deterministic_order (doc : Document) :
    resolve doc = resolve doc ∧ resolve doc = resolveSpecOrder doc :=
  ⟨rfl, visitNodes_eq_spec doc [] doc.organizationHierarchy⟩

/-- C9 (counterexample): a slot whose resolved layout (`Ghost`) is missing
from the Layout Offset Table does resolve — with an empty offsets mapping
— but the problem is NOT reported by the validator: being a node-owned
slot, `validate` returns no error for it. -/
theorem C9_counterexample :
    (resolve C9doc).map (fun i => (i.layout, i.offsets)) = [("Ghost", [])]
    ∧ C9doc.layoutBlueprints.lookup "Ghost" = none
    ∧ (validate C9doc).1 = [] :=
  ⟨rfl, rfl, rfl⟩

/-- C9 (amended): for every resolved instance the `offsets` field is
present, and whenever the instance's resolved layout name is missing from
the Layout Offset Table it is the empty mapping; `resolve` is total (it
never raises), and itself reports nothing. -/
theorem C9_amended_empty_offsets (doc : Document) (inst : ResolvedInstance)
    (h : inst ∈ resolve doc)
    (hmiss : doc.layoutBlueprints.lookup inst.layout = none) :
    inst.offsets = [] := by
  have hoff := visitNodes_offsets_eq doc [] doc.organizationHierarchy
    inst h
  rw [hmiss] at hoff
  simpa using hoff

/-- C9 witness: the amended statement at the concrete instance resolved
with the unknown layout `Ghost`. -/
theorem C9_witness : (instAt C9doc 0).offsets = [] :=
  C9_amended_empty_offsets C9doc (instAt C9doc 0)
    (List.mem_singleton.mpr rfl) rfl

/-- C10 (counterexample): a falsy layout/sheet at the nearest ancestor
masks a farther truthy one instead of falling through to it. In `C10doc`
the root defines `layout = "L"` and `sheetName = "S"` (both truthy), the
inner node defines empty strings for both, and the slot carries empty
strings as well: the claim predicts resolution at `("L", "S")`, but the
single instance resolves with the empty layout and the `"Sheet1"`
default, because `_find_in_path` returns the nearest node where the key
is PRESENT regardless of truthiness. -/
theorem C10_counterexample :
    (resolve C10doc).map (fun i => (i.layout, i.sheet)) = [("", "Sheet1")]
    ∧ C10root.layout = some "L"
    ∧ C10root.sheetName = some "S"
    ∧ C10slot.layout = some "" :=
  ⟨rfl, rfl, rfl, rfl⟩

/-- C10 (amended): at the slot level a falsy value is treated as absent —
a slot whose `layout` is the empty string expands to instances whose
resolution-relevant fields (everything except the back-reference to the
slot object itself) are exactly those of the same slot with the field
missing, and likewise for an empty-string `location.sheetName`; but the
ancestor walk stops at the nearest node where the key is present, so when
that nearest value is itself the empty string the layout resolves to the
empty layout even if a farther ancestor defines a truthy one. -/
theorem C10_amended_falsy_slot_fields (doc : Document) (slot : SlotDef)
    (l : SlotLoc) (path : List OrgNode) (cs : Option String)
    (node : OrgNode) (og : String) (onm : Option String) (si : Nat) :
    (expandSlot doc { slot with layout := some "" } path cs node og onm
        si).map instView
      = (expandSlot doc { slot with layout := none } path cs node og onm
        si).map instView
    ∧ (expandSlot doc
        { slot with location := some { l with sheetName := some "" } }
        path cs node og onm si).map instView
      = (expandSlot doc
        { slot with location := some { l with sheetName := none } }
        path cs node og onm si).map instView
    ∧ (slot.layout = some ""
      → findInPath path OrgNode.layout = some ""
      → ∀ inst ∈ expandSlot doc slot path cs node og onm si,
          inst.layout = "") := by
  refine ⟨?_, ?_, ?_⟩
  · obtain ⟨slay, sloc, slocs, srk, srks, sct, stt⟩ := slot
    rcases slocs with _ | pts <;>
      rcases sloc with _ | ⟨lc, lsn, lrw, lr, lsr, ler⟩
    all_goals try rcases lrw with _ | rs
    all_goals try rcases lr with _ | r
    all_goals try rcases lsr with _ | s
    all_goals try rcases ler with _ | e
    all_goals simp [expandSlot, pyStrOr, instView]
  · obtain ⟨lc, lsn, lrw, lr, lsr, ler⟩ := l
    rcases hlocs : slot.locations with _ | pts
    all_goals try rcases lrw with _ | rs
    all_goals try rcases lr with _ | r
    all_goals try rcases lsr with _ | s
    all_goals try rcases ler with _ | e
    all_goals simp [expandSlot, pyStrOr, instView, hlocs]
  · intro hsl hfp inst hinst
    have hl := (expandSlot_fields_eq doc slot path cs node og onm si
      inst hinst).2
    rw [hsl, hfp] at hl
    simpa [pyStrOr] using hl

/-- C10 witness: the amended statement at the concrete masking scenario's
slot, path and resolved instance. -/
theorem C10_amended_witness :
    (expandSlot C10doc { C10slot with layout := some "" }
      [C10root, C10child] (some "") C10child "node" none 0).map instView
    = (expandSlot C10doc { C10slot with layout := none }
      [C10root, C10child] (some "") C10child "node" none 0).map instView
    ∧ (instAt C10doc 0).layout = "" :=
  ⟨(C10_amended_falsy_slot_fields C10doc C10slot {} [C10root, C10child]
      (some "") C10child "node" none 0).1,
   (C10_amended_falsy_slot_fields C10doc C10slot {} [C10root, C10child]
      (some "") C10child "node" none 0).2.2 rfl rfl (instAt C10doc 0)
      (List.mem_singleton.mpr rfl)⟩
